import Mathlib

/-!
Byte-level model of the DNS hijack responder (`dns_server.c`) of the
esp32-captive-wifi-manager repository, together with a state-machine model of
its connection orchestrator.

Datagrams and buffers are lists of natural numbers standing for bytes
(values `< 256`); a read past the end of a buffer yields `0`, matching the
zero-initialised 256-byte reply buffer of the C code.  Multi-byte header and
record fields are read and written explicitly byte by byte, with the wire
being big-endian.  The ESP32 target is little-endian, so a `uint16_t` field
loaded directly from the packet (as the C code does for `flags`) assembles
as `lowByte + 256 * highByte` of the wire bytes; label-length bytes are
modelled unsigned, as on the RISC-V ESP-IDF targets (a label byte `≥ 0x80`
is not a valid DNS label length in any case).
-/

set_option maxRecDepth 100000

namespace CaptiveDns

/-- Read one byte of a buffer; out-of-range reads give `0` (the reply buffer
in the C code is 256 bytes long and zero-initialised). -/
def getB (buf : List Nat) (i : Nat) : Nat := buf.getD i 0

/-- Write one byte of a buffer; out-of-range writes are dropped. -/
def setB (buf : List Nat) (i : Nat) (v : Nat) : List Nat := buf.set i v

/-- Read `n` consecutive bytes starting at position `p` (the source of a
`memcpy` out of the buffer). -/
def readBytes (buf : List Nat) : Nat → Nat → List Nat
  | _, 0 => []
  | p, n + 1 => getB buf p :: readBytes buf (p + 1) n

/-- Write the bytes `vs` consecutively starting at position `p` (the target
of a `memcpy` into the buffer). -/
def writeBytes : List Nat → Nat → List Nat → List Nat
  | buf, _, [] => buf
  | buf, p, v :: vs => writeBytes (setB buf p v) (p + 1) vs

/-- `ntohs` of the two wire bytes at `p`: DNS multi-byte fields are
big-endian on the wire. -/
def readU16BE (buf : List Nat) (p : Nat) : Nat := 256 * getB buf p + getB buf (p + 1)

/-- A `uint16_t` loaded directly (without `ntohs`) from bytes `p`, `p+1` on
the little-endian ESP32, as the C code does for the `flags` field. -/
def readU16LE (buf : List Nat) (p : Nat) : Nat := getB buf p + 256 * getB buf (p + 1)

/-- The two bytes stored by writing a `uint16_t` through `htons`. -/
def be16 (v : Nat) : List Nat := [v / 256 % 256, v % 256]

/-- The four bytes stored by writing a `uint32_t` through `htonl`. -/
def be32 (v : Nat) : List Nat :=
  [v / 2 ^ 24 % 256, v / 2 ^ 16 % 256, v / 256 % 256, v % 256]

/-- The four bytes stored by writing a `uint32_t` directly on the
little-endian target; an lwIP `esp_ip4_addr_t.addr` already holds the
address in network byte order, so its machine bytes are the wire octets in
order. -/
def le32 (v : Nat) : List Nat :=
  [v % 256, v / 256 % 256, v / 2 ^ 16 % 256, v / 2 ^ 24 % 256]

/-- The bytes of a C string up to (excluding) its first NUL terminator. -/
def cstr (s : List Nat) : List Nat := s.takeWhile (fun b => b != 0)

/-- `strcmp(a, b) == 0` for NUL-terminated strings: the bytes before the
first terminator agree. -/
def strcmpEq (a b : List Nat) : Bool := cstr a = cstr b

/-- `DNS_MAX_LEN`: maximum DNS packet length handled. -/
def DNS_MAX_LEN : Nat := 256

/-- `OPCODE_MASK` (`0x7800`), applied by the C code to the raw
(little-endian-loaded) `flags` field. -/
def OPCODE_MASK : Nat := 0x7800

/-- `QR_FLAG` (`1 << 7`): the query/response bit of the first wire flags
byte, i.e. bit 7 of the little-endian-loaded `flags` field's low byte. -/
def QR_FLAG : Nat := 0x80

/-- `QD_TYPE_A`: DNS query type for an IPv4 address record. -/
def QD_TYPE_A : Nat := 0x0001

/-- `ANS_TTL_SEC`: TTL of every constructed answer, in seconds. -/
def ANS_TTL_SEC : Nat := 300

/-- `IPADDR_ANY`: the all-zero IPv4 address, used as "no address". -/
def IPADDR_ANY : Nat := 0

/-- A configured DNS rule (`dns_entry_pair_t`): a name to match (`"*"` is a
wildcard), an optional network-interface key, and a static IPv4 address used
when no interface key is set.  Strings are byte lists without NUL. -/
structure dns_entry_pair where
  name : List Nat
  if_key : Option (List Nat)
  ip : Nat
deriving DecidableEq

/-- The byte string `"*"`. -/
def starName : List Nat := [42]

/-- `parse_dns_name` body: walk length-prefixed labels from position `p`,
appending each label and a `'.'` (byte 46) to `acc`; abort when the running
decoded length would exceed `maxLen` (the caller's scratch-buffer size).
The fuel argument only bounds the recursion: each iteration grows
`name_len` by at least one and the `maxLen` check fires first, so with
initial fuel `maxLen + 1` the fuel case is unreachable. -/
def parse_dns_name_aux (buf : List Nat) (maxLen : Nat) :
    Nat → Nat → List Nat → Nat → Option (List Nat × Nat)
  | 0, _, _, _ => none
  | fuel + 1, p, acc, name_len =>
    let sub := getB buf p
    if name_len + sub + 1 > maxLen then none
    else
      let acc := acc ++ readBytes buf (p + 1) sub ++ [46]
      let p := p + sub + 1
      if getB buf p != 0 then
        parse_dns_name_aux buf maxLen fuel p acc (name_len + sub + 1)
      else
        some (acc, p + 1)

/-- `parse_dns_name`: decode the wire-format name at position `p` of `buf`
into a dot-separated byte string (the final `'.'` is overwritten by the NUL
terminator, here dropped), returning it with the position just past the
name, or `none` when the decoded name would overflow the `maxLen`-byte
scratch buffer. -/
def parse_dns_name (buf : List Nat) (p : Nat) (maxLen : Nat) :
    Option (List Nat × Nat) :=
  (parse_dns_name_aux buf maxLen (maxLen + 1) p [] 0).map fun r => (r.1.dropLast, r.2)

/-- The static address of the first configured rule: the C code's rule loop
reads `h->entry->ip.addr`, i.e. always entry 0, in its static-IP guard. -/
def headIp : List dns_entry_pair → Nat
  | [] => IPADDR_ANY
  | e :: _ => e.ip

/-- The rule-evaluation loop of `parse_dns_request`: first entry whose name
is `"*"` or equals the decoded query name resolves the address — through the
interface key when present, else through the entry's static address, the
latter guarded by `h->entry->ip.addr != IPADDR_ANY` (entry 0's address, as
written in the source).  A failed static guard falls through to later
entries; no match yields `IPADDR_ANY`. -/
def ruleLookup (h0ip : Nat) (netif : List Nat → Nat) (qname : List Nat) :
    List dns_entry_pair → Nat
  | [] => IPADDR_ANY
  | e :: es =>
    if strcmpEq e.name starName || strcmpEq e.name qname then
      match e.if_key with
      | some key => netif key
      | none =>
        if h0ip ≠ IPADDR_ANY then e.ip
        else ruleLookup h0ip netif qname es
    else ruleLookup h0ip netif qname es

/-- The 16 bytes of one packed `dns_answer_t` record as the C code fills it:
compression pointer `htons(0xC000 | 12)` (the question pointer never
advances past the header), `htons`-encoded type and class, `htonl(300)` TTL,
`htons(4)` RDATA length, and the raw 4-byte address. -/
def answerBytes (qdType qdClass ip : Nat) : List Nat :=
  be16 (0xC000 ||| 12) ++ be16 qdType ++ be16 qdClass ++
    be32 ANS_TTL_SEC ++ be16 4 ++ le32 ip

/-- Store one answer record at position `pos` of the reply buffer. -/
def writeAnswer (buf : List Nat) (pos qdType qdClass ip : Nat) : List Nat :=
  writeBytes buf pos (answerBytes qdType qdClass ip)

/-- The reply buffer right after `memset(0)`/`memcpy(req)`: the request
padded with zeros to the reply capacity. -/
def reqBuffer (req : List Nat) (maxLen : Nat) : List Nat :=
  req ++ List.replicate (maxLen - req.length) 0

/-- The reply buffer after the header edits of `parse_dns_request`:
`flags |= QR_FLAG` (a `uint16_t` or-assignment touching only the low,
first-wire byte) and `an_count = htons(qd_count)` with
`qd_count = ntohs(header->qd_count)`. -/
def replyBase (req : List Nat) (maxLen : Nat) : List Nat :=
  let b0 := reqBuffer req maxLen
  let b1 := setB b0 2 (getB b0 2 ||| QR_FLAG)
  setB (setB b1 6 (readU16BE b1 4 / 256 % 256)) 7 (readU16BE b1 4 % 256)

/-- One iteration of the per-question loop.  Neither the question pointer
(`cur_qd_ptr`, fixed at offset 12) nor the answer pointer (`cur_ans_ptr`,
fixed at offset `reqLen`) is advanced by the C code, so each iteration
re-decodes the first question and writes over the same answer slot.  A name
that overflows the 128-byte scratch buffer aborts; a non-A type or an
unresolved name leaves the buffer untouched. -/
def questionStep (entries : List dns_entry_pair) (netif : List Nat → Nat)
    (reqLen : Nat) (buf : List Nat) : Option (List Nat) :=
  match parse_dns_name buf 12 128 with
  | none => none
  | some (nameBytes, nameEnd) =>
    if readU16BE buf nameEnd = QD_TYPE_A then
      if ruleLookup (headIp entries) netif (cstr nameBytes) entries = IPADDR_ANY then
        some buf
      else
        some (writeAnswer buf reqLen (readU16BE buf nameEnd)
          (readU16BE buf (nameEnd + 2))
          (ruleLookup (headIp entries) netif (cstr nameBytes) entries))
    else some buf

/-- The per-question loop, run `qd_count` times. -/
def questionLoop (entries : List dns_entry_pair) (netif : List Nat → Nat)
    (reqLen : Nat) : Nat → List Nat → Option (List Nat)
  | 0, buf => some buf
  | n + 1, buf =>
    match questionStep entries netif reqLen buf with
    | none => none
    | some buf2 => questionLoop entries netif reqLen n buf2

/-- Result of `parse_dns_request`: `-1` (error), `0` (ignore), or a reply
buffer with the computed reply length. -/
inductive ParseResult where
  | err : ParseResult
  | ignore : ParseResult
  | reply (buf : List Nat) (len : Nat) : ParseResult
deriving DecidableEq

/-- The integer return value of the C function. -/
def ParseResult.retCode : ParseResult → Int
  | .err => -1
  | .ignore => 0
  | .reply _ len => len

/-- The reply buffer of a `reply` result (junk otherwise). -/
def ParseResult.replyBuf : ParseResult → List Nat
  | .reply b _ => b
  | _ => []

/-- `parse_dns_request`: reject over-long requests, copy the request into
the zeroed reply buffer, drop packets failing the `OPCODE_MASK` test on the
raw `flags` field, set the QR flag and the answer count, reject when
`qd_count * sizeof(dns_answer_t) + req_len` exceeds the reply capacity, then
run the per-question loop. -/
def parse_dns_request (req : List Nat) (maxLen : Nat)
    (entries : List dns_entry_pair) (netif : List Nat → Nat) : ParseResult :=
  if req.length > maxLen then .err
  else if readU16LE (reqBuffer req maxLen) 2 &&& OPCODE_MASK ≠ 0 then .ignore
  else if readU16BE (reqBuffer req maxLen) 4 * 16 + req.length > maxLen then .err
  else
    match questionLoop entries netif req.length (readU16BE (reqBuffer req maxLen) 4)
        (replyBase req maxLen) with
    | none => .err
    | some buf => .reply buf (readU16BE (reqBuffer req maxLen) 4 * 16 + req.length)

/-- Outcome of the `sendto` call, abstracting `errno`: success, transient
buffer exhaustion (`ENOMEM`/`ENOBUFS`), or any other error. -/
inductive SendOutcome where
  | ok : SendOutcome
  | noBuffer : SendOutcome
  | fatal : SendOutcome
deriving DecidableEq

/-- Observable outcome of one iteration of the receive loop in
`dns_server_task`: the datagram sent back (if any) and whether the loop
keeps serving packets afterwards. -/
structure IterationResult where
  sent : Option (List Nat)
  continues : Bool
deriving DecidableEq

/-- One iteration of the receive loop of `dns_server_task` after a datagram
`rx` arrives: a non-positive parse result is logged and dropped with the
loop intact; a positive reply length is sent (`sendto` of the first
`reply_len` bytes), and only a send error other than transient buffer
exhaustion breaks the loop. -/
def dnsServerIteration (entries : List dns_entry_pair) (netif : List Nat → Nat)
    (rx : List Nat) (so : SendOutcome) : IterationResult :=
  match parse_dns_request rx DNS_MAX_LEN entries netif with
  | .err => { sent := none, continues := true }
  | .ignore => { sent := none, continues := true }
  | .reply buf len =>
    if len = 0 then { sent := none, continues := true }
    else
      { sent := some (buf.take len)
        continues :=
          match so with
          | .fatal => false
          | _ => true }

/-- Modelled from the spec: the connection orchestrator's states (§ 3
`ConnectionState`).  The orchestrator implementation (`Wifi.c`) is not among
the provided sources; only its header and callers are, so states and
transitions follow the spec's § 4.1 table. -/
inductive ConnState where
  | Booting : ConnState
  | Connecting (attempt : Nat) : ConnState
  | Connected : ConnState
  | Disconnected (attempt : Nat) : ConnState
  | ApFallback : ConnState
  | ApOnly : ConnState
deriving DecidableEq

/-- Modelled from the spec: events consumed by the orchestrator (radio
driver events, credential-store lookup results, portal submissions). -/
inductive OrchEvent where
  | CredentialsFound : OrchEvent
  | NoCredentials : OrchEvent
  | ConnectSucceeded : OrchEvent
  | ConnectFailed : OrchEvent
  | LinkLost : OrchEvent
  | NewCredentials : OrchEvent
deriving DecidableEq

/-- Modelled from the spec: side effects listed in the § 4.1 transition
table. -/
inductive Effect where
  | IssueStaConnect : Effect
  | StartAp : Effect
  | StartDnsResponder : Effect
  | ExposeCaptiveRoutes : Effect
  | PersistCredentials : Effect
  | StopDnsResponder : Effect
  | TearDownCaptiveRoutes : Effect
  | NotifyCollaborators : Effect
deriving DecidableEq

/-- Modelled from the spec: the event-labelled rows of the § 4.1 transition
table; rows not listed leave the state unchanged. -/
def orchStepRaw : ConnState → OrchEvent → ConnState × List Effect
  | .Booting, .CredentialsFound => (.Connecting 0, [.IssueStaConnect])
  | .Booting, .NoCredentials => (.ApOnly, [.StartAp])
  | .Connecting _, .ConnectSucceeded => (.Connected, [.NotifyCollaborators])
  | .Connecting n, .ConnectFailed => (.Disconnected (n + 1), [])
  | .Connected, .LinkLost => (.Disconnected 1, [])
  | .ApFallback, .NewCredentials =>
    (.Connecting 0, [.PersistCredentials, .StopDnsResponder, .TearDownCaptiveRoutes, .IssueStaConnect])
  | .ApOnly, .NewCredentials =>
    (.Connecting 0, [.PersistCredentials, .StopDnsResponder, .TearDownCaptiveRoutes, .IssueStaConnect])
  | s, _ => (s, [])

/-- Modelled from the spec: the guard-only `Disconnected(n)` rows of § 4.1,
resolved immediately after any event: retry while `n < max_retry`, else fall
back to the access point, starting the AP, the DNS responder and the captive
routes. -/
def settle (maxRetry : Nat) : ConnState → ConnState × List Effect
  | .Disconnected n =>
    if n < maxRetry then (.Connecting n, [.IssueStaConnect])
    else (.ApFallback, [.StartAp, .StartDnsResponder, .ExposeCaptiveRoutes])
  | s => (s, [])

/-- Modelled from the spec: one orchestrator step — apply the event row,
then resolve a transient `Disconnected` state. -/
def orchStep (maxRetry : Nat) (s : ConnState) (e : OrchEvent) :
    ConnState × List Effect :=
  let r := orchStepRaw s e
  let r2 := settle maxRetry r.1
  (r2.1, r.2 ++ r2.2)

/-- State after `k` consecutive `ConnectFailed` events, starting from
`Connecting 0` (the state right after `Booting` consumed
`CredentialsFound`). -/
def afterFailures (maxRetry : Nat) : Nat → ConnState
  | 0 => .Connecting 0
  | k + 1 => (orchStep maxRetry (afterFailures maxRetry k) .ConnectFailed).1

/-- DNS wire-format encoding of a list of labels, as described by the
round-trip claim: each label prefixed by its length, the sequence terminated
by a zero byte. -/
def encodeDnsName : List (List Nat) → List Nat
  | [] => [0]
  | l :: ls => l.length :: (l ++ encodeDnsName ls)

/-- The dot-separated byte string of a list of labels. -/
def dottedName : List (List Nat) → List Nat
  | [] => []
  | [l] => l
  | l :: ls => l ++ 46 :: dottedName ls

/-- Wire length of the label sequence excluding the final zero byte. -/
def wireSum : List (List Nat) → Nat
  | [] => 0
  | l :: ls => l.length + 1 + wireSum ls

/-- Concatenation of all labels, each followed by a dot — the scratch-buffer
content built by `parse_dns_name` before the final terminator replaces the
last dot. -/
def joinDotted : List (List Nat) → List Nat
  | [] => []
  | l :: ls => l ++ [46] ++ joinDotted ls

/-- A datagram is a list of byte values. -/
def isBytes (l : List Nat) : Prop := ∀ b ∈ l, b < 256

instance (l : List Nat) : Decidable (isBytes l) := by
  unfold isBytes; infer_instance

/-! ### Concrete packets, rule sets and interface environments used to
exercise the model.  DNS names are byte strings: `"abc"` is `[97, 98, 99]`,
`"foo"` is `[102, 111, 111]`, `"*"` is `[42]`; `192.168.4.1` as a network
order `u32` on a little-endian machine is `17082560`, `1.2.3.4` is
`67305985`. -/

/-- A 21-byte standard query: id `0xABCD`, flags wire bytes `01 00` (RD),
one question `"abc"`, type A, class IN. -/
def c1req : List Nat :=
  [171, 205, 1, 0, 0, 1, 0, 0, 0, 0, 0, 0, 3, 97, 98, 99, 0, 0, 1, 0, 1]

/-- An empty rule set: no name can match. -/
def c1entries : List dns_entry_pair := []

def c1netif : List Nat → Nat := fun _ => 0

def c1buf : List Nat :=
  (parse_dns_request c1req DNS_MAX_LEN c1entries c1netif).replyBuf

/-- Rule 0: interface rule for `"x"` (static address zero); rule 1: static
rule mapping `"foo"` to `1.2.3.4`. -/
def c2entries : List dns_entry_pair :=
  [⟨[120], some [65, 80], 0⟩, ⟨[102, 111, 111], none, 67305985⟩]

/-- A 21-byte standard query for `"foo"`, type A, class IN. -/
def c2req : List Nat :=
  [0, 0, 0, 0, 0, 1, 0, 0, 0, 0, 0, 0, 3, 102, 111, 111, 0, 0, 1, 0, 1]

def c2netif : List Nat → Nat := fun _ => 17082560

/-- A 30-byte standard query with two questions, `"abc"` and `"xyz"`, both
type A, class IN. -/
def c3creq : List Nat :=
  [0, 1, 0, 0, 0, 2, 0, 0, 0, 0, 0, 0, 3, 97, 98, 99, 0, 0, 1, 0, 1,
   3, 120, 121, 122, 0, 0, 1, 0, 1]

/-- A single wildcard interface rule (the typical captive-portal setup). -/
def c3entries : List dns_entry_pair := [⟨[42], some [65, 80], 0⟩]

def c3netif : List Nat → Nat := fun _ => 17082560

def c3cbuf : List Nat :=
  (parse_dns_request c3creq DNS_MAX_LEN c3entries c3netif).replyBuf

/-- A 21-byte standard query, one question `"abc"`, type A, class IN. -/
def c3req : List Nat :=
  [0, 1, 0, 0, 0, 1, 0, 0, 0, 0, 0, 0, 3, 97, 98, 99, 0, 0, 1, 0, 1]

def c3buf : List Nat :=
  (parse_dns_request c3req DNS_MAX_LEN c3entries c3netif).replyBuf

/-- A 12-byte header-only packet whose wire flags bytes are `08 00`:
OPCODE 1 (inverse query), every other flag clear, all counts zero. -/
def c4req : List Nat := [0, 0, 8, 0, 0, 0, 0, 0, 0, 0, 0, 0]

def c4netif : List Nat → Nat := fun _ => 0

/-- A 13-byte packet declaring one question whose name starts with a
label-length byte of 200: decoding would need 201 scratch bytes. -/
def c5req : List Nat := [0, 7, 0, 0, 0, 1, 0, 0, 0, 0, 0, 0, 200]

def c5netif : List Nat → Nat := fun _ => 0

/-- A 22-byte packet declaring two questions: question 1 is `"abc"`,
type A, class IN; question 2 (at offset 21) consists of the single
label-length byte 200, so decoding its name would need 201 scratch
bytes. -/
def c5creq : List Nat :=
  [0, 0, 0, 0, 0, 2, 0, 0, 0, 0, 0, 0, 3, 97, 98, 99, 0, 0, 1, 0, 1, 200]

/-- Same shape as `c3req`: a matched single-question type-A query. -/
def c6req : List Nat :=
  [0, 5, 0, 0, 0, 1, 0, 0, 0, 0, 0, 0, 3, 97, 98, 99, 0, 0, 1, 0, 1]

def c6entries : List dns_entry_pair := [⟨[42], some [65, 80], 0⟩]

def c6netif : List Nat → Nat := fun _ => 17082560

def c6buf : List Nat :=
  (parse_dns_request c6req DNS_MAX_LEN c6entries c6netif).replyBuf

/-- Three labels of 63 bytes each: every label is within the claim's 63-byte
bound, yet the dotted form is 191 bytes. -/
def c7labels : List (List Nat) :=
  [List.replicate 63 97, List.replicate 63 98, List.replicate 63 99]

/-- The two-label name `"abc.de"`. -/
def c7wlabels : List (List Nat) := [[97, 98, 99], [100, 101]]

/-- A standard query for `"abc"` type A with no configured rules. -/
def c9req : List Nat :=
  [0, 9, 0, 0, 0, 1, 0, 0, 0, 0, 0, 0, 3, 97, 98, 99, 0, 0, 1, 0, 1]

def c9netif : List Nat → Nat := fun _ => 0

def c9buf : List Nat :=
  (parse_dns_request c9req DNS_MAX_LEN [] c9netif).replyBuf

/-- A single-question type-A query for `"abc"` with the unusual class value
`0x1234` (bytes 18, 52). -/
def c10req : List Nat :=
  [0, 2, 0, 0, 0, 1, 0, 0, 0, 0, 0, 0, 3, 97, 98, 99, 0, 0, 1, 18, 52]

def c10entries : List dns_entry_pair := [⟨[42], some [65, 80], 0⟩]

def c10netif : List Nat → Nat := fun _ => 17082560

def c10buf : List Nat :=
  (parse_dns_request c10req DNS_MAX_LEN c10entries c10netif).replyBuf

/-! ### Lemmas about the byte primitives -/

theorem length_setB (buf : List Nat) (i v : Nat) :
    (setB buf i v).length = buf.length :=
  List.length_set buf i v

theorem getB_setB_eq {buf : List Nat} {i : Nat} (v : Nat) (h : i < buf.length) :
    getB (setB buf i v) i = v := by
  simp [getB, setB, List.getD_eq_getElem?_getD, List.getElem?_set_self h]

theorem getB_setB_ne {i j : Nat} (buf : List Nat) (v : Nat) (h : i ≠ j) :
    getB (setB buf i v) j = getB buf j := by
  simp [getB, setB, List.getD_eq_getElem?_getD, List.getElem?_set_ne h]

theorem getB_ge {buf : List Nat} {i : Nat} (h : buf.length ≤ i) : getB buf i = 0 := by
  simp [getB, List.getD_eq_getElem?_getD, List.getElem?_eq_none h]

theorem getB_lt_of_isBytes {req : List Nat} (hb : isBytes req) (j : Nat) :
    getB req j < 256 := by
  unfold getB
  rw [List.getD_eq_getElem?_getD]
  cases hj : req[j]? with
  | none => simp
  | some b =>
    have hm : b ∈ req := by
      have := List.getElem?_eq_some_iff.mp hj
      obtain ⟨hlt, hget⟩ := this
      exact hget ▸ List.getElem_mem hlt
    simpa using hb b hm

theorem getB_append_left {l : List Nat} (l2 : List Nat) {i : Nat} (h : i < l.length) :
    getB (l ++ l2) i = getB l i := by
  simp [getB, List.getD_eq_getElem?_getD, List.getElem?_append_left h]

theorem getB_reqBuffer (req : List Nat) (m j : Nat) :
    getB (reqBuffer req m) j = getB req j := by
  unfold reqBuffer
  rcases Nat.lt_or_ge j req.length with h | h
  · exact getB_append_left _ h
  · rw [getB_ge h]
    unfold getB
    rw [List.getD_eq_getElem?_getD, List.getElem?_append_right h,
      List.getElem?_replicate]
    split <;> rfl

theorem length_reqBuffer (req : List Nat) (m : Nat) :
    (reqBuffer req m).length = req.length + (m - req.length) := by
  simp [reqBuffer]

theorem le_length_reqBuffer (req : List Nat) (m : Nat) :
    m ≤ (reqBuffer req m).length := by
  rw [length_reqBuffer]; omega

theorem readU16BE_setB_ne {i p : Nat} (buf : List Nat) (v : Nat)
    (h1 : i ≠ p) (h2 : i ≠ p + 1) :
    readU16BE (setB buf i v) p = readU16BE buf p := by
  simp [readU16BE, getB_setB_ne _ _ h1, getB_setB_ne _ _ h2]

theorem readU16BE_reqBuffer (req : List Nat) (m p : Nat) :
    readU16BE (reqBuffer req m) p = readU16BE req p := by
  simp [readU16BE, getB_reqBuffer]

theorem readU16LE_reqBuffer (req : List Nat) (m p : Nat) :
    readU16LE (reqBuffer req m) p = readU16LE req p := by
  simp [readU16LE, getB_reqBuffer]

/-! ### Lemmas about `replyBase` -/

theorem length_replyBase (req : List Nat) (m : Nat) :
    (replyBase req m).length = (reqBuffer req m).length := by
  simp [replyBase, length_setB]

theorem getB_replyBase_other (req : List Nat) (m : Nat) {j : Nat}
    (h2 : j ≠ 2) (h6 : j ≠ 6) (h7 : j ≠ 7) :
    getB (replyBase req m) j = getB req j := by
  simp only [replyBase]
  rw [getB_setB_ne _ _ (Ne.symm h7), getB_setB_ne _ _ (Ne.symm h6),
    getB_setB_ne _ _ (Ne.symm h2), getB_reqBuffer]

theorem getB_replyBase_2 (req : List Nat) (m : Nat) (h : 8 ≤ req.length) :
    getB (replyBase req m) 2 = getB req 2 ||| QR_FLAG := by
  have hlen : 8 ≤ (reqBuffer req m).length := by rw [length_reqBuffer]; omega
  simp only [replyBase]
  rw [getB_setB_ne _ _ (by omega), getB_setB_ne _ _ (by omega),
    getB_setB_eq _ (by omega), getB_reqBuffer]

theorem getB_replyBase_6 (req : List Nat) (m : Nat) (h : 8 ≤ req.length) :
    getB (replyBase req m) 6 = readU16BE req 4 / 256 % 256 := by
  have hlen : 8 ≤ (reqBuffer req m).length := by rw [length_reqBuffer]; omega
  simp only [replyBase]
  rw [getB_setB_ne _ _ (by omega),
    getB_setB_eq _ (by rw [length_setB]; omega),
    readU16BE_setB_ne _ _ (by omega) (by omega), readU16BE_reqBuffer]

theorem getB_replyBase_7 (req : List Nat) (m : Nat) (h : 8 ≤ req.length) :
    getB (replyBase req m) 7 = readU16BE req 4 % 256 := by
  have hlen : 8 ≤ (reqBuffer req m).length := by rw [length_reqBuffer]; omega
  simp only [replyBase]
  rw [getB_setB_eq _ (by rw [length_setB, length_setB]; omega),
    readU16BE_setB_ne _ _ (by omega) (by omega), readU16BE_reqBuffer]

/-! ### Lemmas about `writeBytes`, `readBytes` and `writeAnswer` -/

theorem length_writeBytes (vs : List Nat) (buf : List Nat) (p : Nat) :
    (writeBytes buf p vs).length = buf.length := by
  induction vs generalizing buf p with
  | nil => rfl
  | cons v vs ih => rw [writeBytes, ih, length_setB]

theorem getB_writeBytes_out (vs : List Nat) (buf : List Nat) (p j : Nat)
    (h : j < p ∨ p + vs.length ≤ j) :
    getB (writeBytes buf p vs) j = getB buf j := by
  induction vs generalizing buf p with
  | nil => rfl
  | cons v vs ih =>
    rw [writeBytes, ih _ _ (by simp at h ⊢; omega),
      getB_setB_ne _ _ (by simp at h; omega)]

theorem getB_writeBytes_in (vs : List Nat) (buf : List Nat) (p k : Nat)
    (hk : k < vs.length) (hb : p + vs.length ≤ buf.length) :
    getB (writeBytes buf p vs) (p + k) = vs.getD k 0 := by
  induction vs generalizing buf p k with
  | nil => simp at hk
  | cons v vs ih =>
    rw [writeBytes]
    cases k with
    | zero =>
      have h1 : getB (writeBytes (setB buf p v) (p + 1) vs) (p + 0) =
          getB (setB buf p v) (p + 0) :=
        getB_writeBytes_out vs (setB buf p v) (p + 1) (p + 0) (Or.inl (by omega))
      have h2 : getB (setB buf p v) p = v :=
        getB_setB_eq v (by simp at hb; omega)
      rw [h1, Nat.add_zero, h2]
      rfl
    | succ k =>
      have : p + (k + 1) = (p + 1) + k := by omega
      rw [this, ih _ _ _ (by simpa using hk) (by rw [length_setB]; simp at hb; omega)]
      rfl

theorem readBytes_writeBytes (vs : List Nat) (buf : List Nat) (p : Nat)
    (hb : p + vs.length ≤ buf.length) :
    readBytes (writeBytes buf p vs) p vs.length = vs := by
  induction vs generalizing buf p with
  | nil => rfl
  | cons v vs ih =>
    rw [List.length_cons, readBytes, writeBytes]
    have h0 : getB (writeBytes (setB buf p v) (p + 1) vs) p = v := by
      have h1 : getB (writeBytes (setB buf p v) (p + 1) vs) p =
          getB (setB buf p v) p :=
        getB_writeBytes_out vs (setB buf p v) (p + 1) p (Or.inl (by omega))
      rw [h1]
      exact getB_setB_eq v (by simp at hb; omega)
    rw [h0, ih _ _ (by rw [length_setB]; simp at hb; omega)]

theorem getB_of_readBytes {buf : List Nat} :
    ∀ {n p : Nat} {vs : List Nat}, readBytes buf p n = vs →
      ∀ k, k < n → getB buf (p + k) = vs.getD k 0 := by
  intro n
  induction n with
  | zero => intro p vs _ k hk; omega
  | succ n ih =>
    intro p vs h k hk
    rw [readBytes] at h
    subst h
    cases k with
    | zero => simp
    | succ k =>
      rw [List.getD_cons_succ]
      have hpk : p + (k + 1) = (p + 1) + k := by omega
      rw [hpk]
      exact ih rfl k (by omega)

theorem length_answerBytes (qdType qdClass ip : Nat) :
    (answerBytes qdType qdClass ip).length = 16 := rfl

/-! ### Lemmas about the per-question loop -/

theorem questionStep_cases {entries : List dns_entry_pair} {netif : List Nat → Nat}
    {reqLen : Nat} {buf out : List Nat}
    (h : questionStep entries netif reqLen buf = some out) :
    out = buf ∨
      ∃ nb ne, parse_dns_name buf 12 128 = some (nb, ne) ∧
        readU16BE buf ne = QD_TYPE_A ∧
        ruleLookup (headIp entries) netif (cstr nb) entries ≠ IPADDR_ANY ∧
        out = writeAnswer buf reqLen QD_TYPE_A (readU16BE buf (ne + 2))
          (ruleLookup (headIp entries) netif (cstr nb) entries) := by
  unfold questionStep at h
  cases hp : parse_dns_name buf 12 128 with
  | none => rw [hp] at h; cases h
  | some r =>
    obtain ⟨nb, ne⟩ := r
    rw [hp] at h
    simp only at h
    by_cases ht : readU16BE buf ne = QD_TYPE_A
    · rw [if_pos ht] at h
      by_cases hi : ruleLookup (headIp entries) netif (cstr nb) entries = IPADDR_ANY
      · rw [if_pos hi] at h
        simp only [Option.some.injEq] at h
        exact Or.inl h.symm
      · rw [if_neg hi] at h
        simp only [Option.some.injEq] at h
        refine Or.inr ⟨nb, ne, rfl, ht, hi, ?_⟩
        rw [← h, ht]
    · rw [if_neg ht] at h
      simp only [Option.some.injEq] at h
      exact Or.inl h.symm

theorem questionStep_length {entries : List dns_entry_pair} {netif : List Nat → Nat}
    {reqLen : Nat} {buf out : List Nat}
    (h : questionStep entries netif reqLen buf = some out) :
    out.length = buf.length := by
  rcases questionStep_cases h with h1 | ⟨nb, ne, _, _, _, h1⟩
  · rw [h1]
  · rw [h1, writeAnswer, length_writeBytes]

theorem questionStep_preserve {entries : List dns_entry_pair} {netif : List Nat → Nat}
    {reqLen : Nat} {buf out : List Nat}
    (h : questionStep entries netif reqLen buf = some out)
    {j : Nat} (hj : j < reqLen ∨ reqLen + 16 ≤ j) :
    getB out j = getB buf j := by
  rcases questionStep_cases h with h1 | ⟨nb, ne, _, _, _, h1⟩
  · rw [h1]
  · rw [h1, writeAnswer]
    refine getB_writeBytes_out _ _ _ _ ?_
    rw [length_answerBytes]
    exact hj

theorem questionStep_ttl {entries : List dns_entry_pair} {netif : List Nat → Nat}
    {reqLen : Nat} {buf out : List Nat}
    (h : questionStep entries netif reqLen buf = some out)
    (hlen : reqLen + 16 ≤ buf.length)
    (hin : getB buf reqLen ≠ 0 → readBytes buf (reqLen + 6) 4 = be32 ANS_TTL_SEC) :
    getB out reqLen ≠ 0 → readBytes out (reqLen + 6) 4 = be32 ANS_TTL_SEC := by
  rcases questionStep_cases h with h1 | ⟨nb, ne, _, _, _, h1⟩
  · rw [h1]; exact hin
  · intro _
    rw [h1, writeAnswer]
    have g6 := getB_writeBytes_in
      (answerBytes QD_TYPE_A (readU16BE buf (ne + 2))
        (ruleLookup (headIp entries) netif (cstr nb) entries)) buf reqLen 6
      (by rw [length_answerBytes]; omega) (by rw [length_answerBytes]; omega)
    have g7 := getB_writeBytes_in
      (answerBytes QD_TYPE_A (readU16BE buf (ne + 2))
        (ruleLookup (headIp entries) netif (cstr nb) entries)) buf reqLen 7
      (by rw [length_answerBytes]; omega) (by rw [length_answerBytes]; omega)
    have g8 := getB_writeBytes_in
      (answerBytes QD_TYPE_A (readU16BE buf (ne + 2))
        (ruleLookup (headIp entries) netif (cstr nb) entries)) buf reqLen 8
      (by rw [length_answerBytes]; omega) (by rw [length_answerBytes]; omega)
    have g9 := getB_writeBytes_in
      (answerBytes QD_TYPE_A (readU16BE buf (ne + 2))
        (ruleLookup (headIp entries) netif (cstr nb) entries)) buf reqLen 9
      (by rw [length_answerBytes]; omega) (by rw [length_answerBytes]; omega)
    simp only [readBytes]
    rw [show reqLen + 6 + 1 = reqLen + 7 from rfl,
      show reqLen + 7 + 1 = reqLen + 8 from rfl,
      show reqLen + 8 + 1 = reqLen + 9 from rfl, g6, g7, g8, g9]
    rfl

theorem questionStep_slot0 {entries : List dns_entry_pair} {netif : List Nat → Nat}
    {reqLen : Nat} {buf out : List Nat}
    (h : questionStep entries netif reqLen buf = some out)
    (hlen : reqLen + 16 ≤ buf.length)
    (hin : getB buf reqLen = 0 ∨ getB buf reqLen = 192) :
    getB out reqLen = 0 ∨ getB out reqLen = 192 := by
  rcases questionStep_cases h with h1 | ⟨nb, ne, _, _, _, h1⟩
  · rw [h1]; exact hin
  · right
    rw [h1, writeAnswer]
    have g0 := getB_writeBytes_in
      (answerBytes QD_TYPE_A (readU16BE buf (ne + 2))
        (ruleLookup (headIp entries) netif (cstr nb) entries)) buf reqLen 0
      (by rw [length_answerBytes]; omega) (by rw [length_answerBytes]; omega)
    exact g0.trans (by rfl)

theorem questionLoop_length {entries : List dns_entry_pair} {netif : List Nat → Nat}
    {reqLen : Nat} {n : Nat} :
    ∀ {buf out : List Nat}, questionLoop entries netif reqLen n buf = some out →
      out.length = buf.length := by
  induction n with
  | zero =>
    intro buf out h
    rw [questionLoop] at h
    simp only [Option.some.injEq] at h
    rw [← h]
  | succ n ih =>
    intro buf out h
    rw [questionLoop] at h
    cases hs : questionStep entries netif reqLen buf with
    | none => rw [hs] at h; cases h
    | some b2 =>
      rw [hs] at h
      rw [ih h, questionStep_length hs]

theorem questionLoop_preserve {entries : List dns_entry_pair} {netif : List Nat → Nat}
    {reqLen : Nat} {n : Nat} :
    ∀ {buf out : List Nat}, questionLoop entries netif reqLen n buf = some out →
      ∀ {j : Nat}, (j < reqLen ∨ reqLen + 16 ≤ j) → getB out j = getB buf j := by
  induction n with
  | zero =>
    intro buf out h j hj
    rw [questionLoop] at h
    simp only [Option.some.injEq] at h
    rw [← h]
  | succ n ih =>
    intro buf out h j hj
    rw [questionLoop] at h
    cases hs : questionStep entries netif reqLen buf with
    | none => rw [hs] at h; cases h
    | some b2 =>
      rw [hs] at h
      rw [ih h hj, questionStep_preserve hs hj]

theorem questionLoop_ttl {entries : List dns_entry_pair} {netif : List Nat → Nat}
    {reqLen : Nat} {n : Nat} :
    ∀ {buf out : List Nat}, questionLoop entries netif reqLen n buf = some out →
      reqLen + 16 ≤ buf.length →
      (getB buf reqLen ≠ 0 → readBytes buf (reqLen + 6) 4 = be32 ANS_TTL_SEC) →
      (getB out reqLen ≠ 0 → readBytes out (reqLen + 6) 4 = be32 ANS_TTL_SEC) := by
  induction n with
  | zero =>
    intro buf out h _ hin
    rw [questionLoop] at h
    simp only [Option.some.injEq] at h
    rw [← h]
    exact hin
  | succ n ih =>
    intro buf out h hlen hin
    rw [questionLoop] at h
    cases hs : questionStep entries netif reqLen buf with
    | none => rw [hs] at h; cases h
    | some b2 =>
      rw [hs] at h
      exact ih h (by rw [questionStep_length hs]; exact hlen)
        (questionStep_ttl hs hlen hin)

theorem questionLoop_fixed {entries : List dns_entry_pair} {netif : List Nat → Nat}
    {reqLen : Nat} {buf : List Nat}
    (hs : questionStep entries netif reqLen buf = some buf) :
    ∀ n, questionLoop entries netif reqLen n buf = some buf := by
  intro n
  induction n with
  | zero => rw [questionLoop]
  | succ n ih =>
    rw [questionLoop, hs]
    exact ih

/-! ### Inversion of `parse_dns_request` on an accepted request -/

theorem parse_dns_request_reply_inv {req : List Nat} {maxLen : Nat}
    {entries : List dns_entry_pair} {netif : List Nat → Nat}
    {buf : List Nat} {len : Nat}
    (h : parse_dns_request req maxLen entries netif = .reply buf len) :
    req.length ≤ maxLen ∧
    readU16LE req 2 &&& OPCODE_MASK = 0 ∧
    len = readU16BE req 4 * 16 + req.length ∧ len ≤ maxLen ∧
    questionLoop entries netif req.length (readU16BE req 4)
      (replyBase req maxLen) = some buf := by
  unfold parse_dns_request at h
  by_cases h1 : req.length > maxLen
  · rw [if_pos h1] at h; cases h
  · rw [if_neg h1] at h
    by_cases h2 : readU16LE (reqBuffer req maxLen) 2 &&& OPCODE_MASK ≠ 0
    · rw [if_pos h2] at h; cases h
    · rw [if_neg h2] at h
      by_cases h3 : readU16BE (reqBuffer req maxLen) 4 * 16 + req.length > maxLen
      · rw [if_pos h3] at h; cases h
      · rw [if_neg h3] at h
        cases hq : questionLoop entries netif req.length
            (readU16BE (reqBuffer req maxLen) 4) (replyBase req maxLen) with
        | none => rw [hq] at h; cases h
        | some b2 =>
          rw [hq] at h
          injection h with hb hl
          rw [readU16BE_reqBuffer] at hq h3 hl
          rw [readU16LE_reqBuffer] at h2
          subst hb
          refine ⟨by omega, not_not.mp h2, hl.symm, by omega, hq⟩

/-! ### Decoding an encoded name: round-trip machinery -/

theorem getB_of_drop_cons {buf t : List Nat} {p a : Nat}
    (h : buf.drop p = a :: t) : getB buf p = a := by
  unfold getB
  rw [List.getD_eq_getElem?_getD, ← List.head?_drop, h]
  rfl

theorem drop_succ_of_drop_cons {buf t : List Nat} {p a : Nat}
    (h : buf.drop p = a :: t) : buf.drop (p + 1) = t := by
  rw [← List.drop_drop, h]
  rfl

theorem readBytes_of_drop {buf : List Nat} :
    ∀ (l : List Nat) (t : List Nat) (p : Nat), buf.drop p = l ++ t →
      readBytes buf p l.length = l := by
  intro l
  induction l with
  | nil => intro t p _; rfl
  | cons a l ih =>
    intro t p h
    rw [List.length_cons, readBytes,
      getB_of_drop_cons (by rw [h]; rfl),
      ih t (p + 1) (drop_succ_of_drop_cons (by rw [h]; rfl))]

theorem drop_of_drop_append {buf l t : List Nat} {p : Nat}
    (h : buf.drop p = l ++ t) : buf.drop (p + l.length) = t := by
  rw [← List.drop_drop, h, List.drop_left]

theorem parse_dns_name_aux_encode :
    ∀ (labels : List (List Nat)), labels ≠ [] →
      (∀ l ∈ labels, 1 ≤ l.length) →
      ∀ (fuel p nlen : Nat) (acc : List Nat) (buf : List Nat),
        buf.drop p = encodeDnsName labels →
        nlen + wireSum labels ≤ 128 →
        labels.length ≤ fuel →
        parse_dns_name_aux buf 128 fuel p acc nlen =
          some (acc ++ joinDotted labels, p + wireSum labels + 1) := by
  intro labels
  induction labels with
  | nil => intro h; exact absurd rfl h
  | cons l ls ih =>
    intro _ hwf fuel p nlen acc buf hdrop hsum hfuel
    rw [encodeDnsName] at hdrop
    have hwS : wireSum (l :: ls) = l.length + 1 + wireSum ls := rfl
    cases fuel with
    | zero => simp at hfuel
    | succ f =>
      have hsub : getB buf p = l.length := getB_of_drop_cons hdrop
      have hdrop1 : buf.drop (p + 1) = l ++ encodeDnsName ls :=
        drop_succ_of_drop_cons hdrop
      have hread : readBytes buf (p + 1) l.length = l :=
        readBytes_of_drop l (encodeDnsName ls) (p + 1) hdrop1
      have hdrop2 : buf.drop (p + 1 + l.length) = encodeDnsName ls :=
        drop_of_drop_append hdrop1
      have hidx : p + l.length + 1 = p + 1 + l.length := by omega
      simp only [parse_dns_name_aux, hsub]
      rw [if_neg (by omega)]
      rw [hread, hidx]
      cases ls with
      | nil =>
        have hz : getB buf (p + 1 + l.length) = 0 :=
          getB_of_drop_cons (t := []) hdrop2
        rw [hz]
        rw [if_neg (by simp)]
        simp only [Option.some.injEq, Prod.mk.injEq]
        constructor
        · simp [joinDotted]
        · simp only [wireSum]
          omega
      | cons r rs =>
        rw [encodeDnsName] at hdrop2
        have hr : getB buf (p + 1 + l.length) = r.length :=
          getB_of_drop_cons hdrop2
        have hr1 : 1 ≤ r.length := hwf r (by simp)
        rw [hr]
        rw [if_pos (by simp only [bne_iff_ne, ne_eq]; omega)]
        have hrec := ih (List.cons_ne_nil r rs)
          (fun x hx => hwf x (List.mem_cons_of_mem l hx))
          f (p + 1 + l.length) (nlen + l.length + 1) (acc ++ l ++ [46]) buf
          hdrop2 (by rw [hwS] at hsum; omega)
          (by simp at hfuel ⊢; omega)
        rw [hrec]
        simp only [Option.some.injEq, Prod.mk.injEq]
        constructor
        · simp [joinDotted, List.append_assoc]
        · rw [hwS]; omega

theorem dropLast_joinDotted :
    ∀ (labels : List (List Nat)), labels ≠ [] →
      (joinDotted labels).dropLast = dottedName labels := by
  intro labels
  induction labels with
  | nil => intro h; exact absurd rfl h
  | cons l ls ih =>
    intro _
    cases ls with
    | nil => simp [joinDotted, dottedName]
    | cons r rs =>
      have hne : joinDotted (r :: rs) ≠ [] := by
        simp only [joinDotted]
        intro hh
        have := congrArg List.length hh
        simp at this
      have hne2 : [46] ++ joinDotted (r :: rs) ≠ [] := by simp
      have hd : dottedName (l :: r :: rs) = l ++ 46 :: dottedName (r :: rs) := rfl
      rw [joinDotted, hd, List.append_assoc,
        List.dropLast_append_of_ne_nil l hne2,
        List.dropLast_append_of_ne_nil [46] hne,
        ih (List.cons_ne_nil r rs)]
      simp

theorem wireSum_eq_dotted :
    ∀ (labels : List (List Nat)), labels ≠ [] →
      wireSum labels = (dottedName labels).length + 1 := by
  intro labels
  induction labels with
  | nil => intro h; exact absurd rfl h
  | cons l ls ih =>
    intro _
    cases ls with
    | nil => simp [wireSum, dottedName]
    | cons r rs =>
      have hd : dottedName (l :: r :: rs) = l ++ 46 :: dottedName (r :: rs) := rfl
      rw [wireSum, hd, ih (List.cons_ne_nil r rs)]
      simp
      omega

theorem length_encodeDnsName :
    ∀ (labels : List (List Nat)),
      (encodeDnsName labels).length = wireSum labels + 1 := by
  intro labels
  induction labels with
  | nil => rfl
  | cons l ls ih => simp [encodeDnsName, wireSum, ih]; omega

theorem noZero_dottedName :
    ∀ (labels : List (List Nat)), (∀ l ∈ labels, ∀ b ∈ l, b ≠ 0) →
      ∀ b ∈ dottedName labels, b ≠ 0 := by
  intro labels
  induction labels with
  | nil => intro _ b hb; simp [dottedName] at hb
  | cons l ls ih =>
    intro hz b hb
    cases ls with
    | nil => exact hz l (by simp) b (by simpa [dottedName] using hb)
    | cons r rs =>
      have hd : dottedName (l :: r :: rs) = l ++ 46 :: dottedName (r :: rs) := rfl
      rw [hd] at hb
      rcases List.mem_append.mp hb with hb | hb
      · exact hz l (by simp) b hb
      · rcases List.mem_cons.mp hb with hb | hb
        · omega
        · exact ih (fun x hx => hz x (List.mem_cons_of_mem l hx)) b hb

/-! ### Lemmas about the orchestrator model -/

theorem afterFailures_lt {N : Nat} :
    ∀ {k : Nat}, k < N → afterFailures N k = ConnState.Connecting k := by
  intro k
  induction k with
  | zero => intro _; rfl
  | succ k ih =>
    intro hk
    rw [afterFailures, ih (by omega)]
    simp only [orchStep, orchStepRaw, settle]
    rw [if_pos (by omega : k + 1 < N)]

theorem afterFailures_ge {N : Nat} (hN : 1 ≤ N) :
    ∀ {k : Nat}, N ≤ k → afterFailures N k = ConnState.ApFallback := by
  intro k
  induction k with
  | zero => intro h; omega
  | succ k ih =>
    intro hk
    rcases Nat.lt_or_ge k N with hlt | hge
    · rw [afterFailures, afterFailures_lt hlt]
      simp only [orchStep, orchStepRaw, settle]
      rw [if_neg (by omega : ¬ k + 1 < N)]
    · rw [afterFailures, ih hge]
      rfl

/-! ### Further helper lemmas about accepted requests -/

theorem questionLoop_zero {entries : List dns_entry_pair} {netif : List Nat → Nat}
    {reqLen : Nat} {buf : List Nat} :
    questionLoop entries netif reqLen 0 buf = some buf := rfl

theorem questionLoop_succ {entries : List dns_entry_pair} {netif : List Nat → Nat}
    {reqLen n : Nat} {buf : List Nat} :
    questionLoop entries netif reqLen (n + 1) buf =
      match questionStep entries netif reqLen buf with
      | none => none
      | some b2 => questionLoop entries netif reqLen n b2 := rfl

theorem parse_single_question {req : List Nat} {entries : List dns_entry_pair}
    {netif : List Nat → Nat} {buf : List Nat} {len : Nat}
    (hp : parse_dns_request req DNS_MAX_LEN entries netif = .reply buf len)
    (h1 : readU16BE req 4 = 1)
    {nb : List Nat} {ne : Nat}
    (hn : parse_dns_name (replyBase req DNS_MAX_LEN) 12 128 = some (nb, ne))
    (ht : readU16BE (replyBase req DNS_MAX_LEN) ne = QD_TYPE_A)
    (hip : ruleLookup (headIp entries) netif (cstr nb) entries ≠ IPADDR_ANY) :
    len = req.length + 16 ∧
    buf = writeAnswer (replyBase req DNS_MAX_LEN) req.length QD_TYPE_A
      (readU16BE (replyBase req DNS_MAX_LEN) (ne + 2))
      (ruleLookup (headIp entries) netif (cstr nb) entries) := by
  obtain ⟨hle, hop, hlen_eq, hcap, hloop⟩ := parse_dns_request_reply_inv hp
  rw [h1] at hloop hlen_eq
  rw [show (1 : Nat) = 0 + 1 from rfl, questionLoop_succ] at hloop
  cases hs : questionStep entries netif req.length (replyBase req DNS_MAX_LEN) with
  | none => rw [hs] at hloop; cases hloop
  | some b2 =>
    rw [hs] at hloop
    simp only [questionLoop_zero, Option.some.injEq] at hloop
    subst hloop
    unfold questionStep at hs
    rw [hn] at hs
    simp only at hs
    rw [if_pos ht, if_neg hip] at hs
    simp only [Option.some.injEq] at hs
    refine ⟨by omega, ?_⟩
    rw [← hs, ht]

theorem parse_dns_name_aux_pos {buf : List Nat} {maxLen : Nat} :
    ∀ {fuel p nlen : Nat} {acc nb : List Nat} {ne : Nat},
      parse_dns_name_aux buf maxLen fuel p acc nlen = some (nb, ne) →
      p + 2 ≤ ne := by
  intro fuel
  induction fuel with
  | zero => intro p nlen acc nb ne h; cases h
  | succ fuel ih =>
    intro p nlen acc nb ne h
    simp only [parse_dns_name_aux] at h
    by_cases hc : nlen + getB buf p + 1 > maxLen
    · rw [if_pos hc] at h; cases h
    · rw [if_neg hc] at h
      by_cases hz : (getB buf (p + getB buf p + 1) != 0) = true
      · rw [if_pos hz] at h
        have := ih h
        omega
      · rw [if_neg hz] at h
        simp only [Option.some.injEq, Prod.mk.injEq] at h
        omega

theorem parse_dns_name_pos {buf : List Nat} {p maxLen : Nat} {nb : List Nat}
    {ne : Nat} (h : parse_dns_name buf p maxLen = some (nb, ne)) :
    p + 2 ≤ ne := by
  unfold parse_dns_name at h
  cases ha : parse_dns_name_aux buf maxLen (maxLen + 1) p [] 0 with
  | none => rw [ha] at h; cases h
  | some r =>
    rw [ha] at h
    simp only [Option.map_some', Option.some.injEq, Prod.mk.injEq] at h
    have := parse_dns_name_aux_pos ha
    omega

theorem getB_replyBase_lt {req : List Nat} (hb : isBytes req) (m : Nat)
    (hm : 8 ≤ req.length) :
    ∀ j, getB (replyBase req m) j < 256 := by
  intro j
  by_cases h2 : j = 2
  · subst h2
    rw [getB_replyBase_2 req m hm]
    have hx := getB_lt_of_isBytes hb 2
    have : getB req 2 ||| QR_FLAG < 2 ^ 8 :=
      Nat.or_lt_two_pow (by simpa using hx) (by decide)
    simpa using this
  · by_cases h6 : j = 6
    · subst h6
      rw [getB_replyBase_6 req m hm]
      omega
    · by_cases h7 : j = 7
      · subst h7
        rw [getB_replyBase_7 req m hm]
        omega
      · rw [getB_replyBase_other req m h2 h6 h7]
        exact getB_lt_of_isBytes hb j

/-! ### The claims -/

/-- Claim C8: for every configured `max_retry = N ≥ 1`, exactly `N`
consecutive `ConnectFailed` events drive the orchestrator from the
`Booting`/`Disconnected` retry cycle into `ApFallback`: after fewer than `N`
failures the state is still `Connecting`, after the `N`-th (and any later)
failure it is `ApFallback`, and the transition that enters `ApFallback`
emits the start-access-point effect, so the device becomes reachable on its
own access point. -/
theorem c8_retry_fallback (N : Nat) (hN : 1 ≤ N) :
    (∀ k, k < N → afterFailures N k = ConnState.Connecting k) ∧
    afterFailures N N = ConnState.ApFallback ∧
    (∀ k, N ≤ k → afterFailures N k = ConnState.ApFallback) ∧
    Effect.StartAp ∈ (orchStep N (afterFailures N (N - 1)) OrchEvent.ConnectFailed).2 := by
  refine ⟨fun k hk => afterFailures_lt hk, afterFailures_ge hN (Nat.le_refl N),
    fun k hk => afterFailures_ge hN hk, ?_⟩
  rw [afterFailures_lt (by omega : N - 1 < N)]
  simp only [orchStep, orchStepRaw, settle]
  rw [if_neg (by omega : ¬ N - 1 + 1 < N)]
  simp

/-- Witness for C8 at `max_retry = 3`: two failures leave the orchestrator
in `Connecting 2`, the third takes it to `ApFallback` where it stays, and
the third failure's transition starts the access point. -/
theorem c8_retry_fallback_witness :
    1 ≤ 3 ∧ afterFailures 3 2 = ConnState.Connecting 2 ∧
    afterFailures 3 3 = ConnState.ApFallback ∧
    afterFailures 3 7 = ConnState.ApFallback ∧
    Effect.StartAp ∈ (orchStep 3 (afterFailures 3 (3 - 1)) OrchEvent.ConnectFailed).2 :=
  ⟨by decide, (c8_retry_fallback 3 (by decide)).1 2 (by decide),
    (c8_retry_fallback 3 (by decide)).2.1,
    (c8_retry_fallback 3 (by decide)).2.2.1 7 (by decide),
    (c8_retry_fallback 3 (by decide)).2.2.2⟩

/-- Claim C4 is false on the code: the packet `c4req` declares OPCODE 1
(inverse query; wire flags bytes `08 00`), yet `parse_dns_request` returns
12 rather than 0, and the serving loop sends the 12-byte response.  The
`OPCODE_MASK` test is applied to the little-endian-loaded `flags` word, so
`0x7800` covers the wire's Z and upper RCODE bits (byte 3, bits 3–6)
instead of the OPCODE field (byte 2, bits 3–6). -/
theorem c4_opcode_bug :
    (readU16BE c4req 2 >>> 11) &&& 15 = 1 ∧
    (parse_dns_request c4req DNS_MAX_LEN [] c4netif).retCode = 12 ∧
    (dnsServerIteration [] c4netif c4req SendOutcome.ok).sent ≠ none ∧
    (readU16LE c4req 2 &&& OPCODE_MASK) = 0 := by
  decide

/-- Claim C2 is false on the code for static rules beyond index 0: with
rule 0 an interface rule (its static address field zero) and rule 1 the
static rule `"foo" ↦ 1.2.3.4`, a type-A query for `"foo"` yields no answer
record at all — the rule loop's static-IP guard reads `h->entry->ip.addr`
(always entry 0) instead of entry `i`, so the matching static rule is
skipped and the answer slot stays zero, where the claim requires an answer
carrying `1.2.3.4`. -/
theorem c2_static_rule_bug :
    (c2entries.getD 1 ⟨[], none, 0⟩).name = [102, 111, 111] ∧
    (c2entries.getD 1 ⟨[], none, 0⟩).if_key = none ∧
    (c2entries.getD 1 ⟨[], none, 0⟩).ip ≠ IPADDR_ANY ∧
    ruleLookup (headIp c2entries) c2netif [102, 111, 111] c2entries = IPADDR_ANY ∧
    (parse_dns_request c2req DNS_MAX_LEN c2entries c2netif).retCode = 37 ∧
    getB (parse_dns_request c2req DNS_MAX_LEN c2entries c2netif).replyBuf 21 = 0 := by
  decide

/-- Claim C3 is false on the code for more than one question: for the
two-question request `c3creq` (questions `"abc"` and `"xyz"`, both type A,
both matched by the wildcard rule) the reply reserves two answer slots, but
the second slot (offset 46) is entirely zero — no answer record referring
to the second question's name (offset 21, pointer bytes `C0 15`) is ever
written, because neither the question pointer nor the answer pointer
advances; the one answer written points at the first question (`C0 0C`). -/
theorem c3_counterexample :
    readU16BE c3creq 4 = 2 ∧
    (parse_dns_request c3creq DNS_MAX_LEN c3entries c3netif).retCode = 62 ∧
    getB c3cbuf 30 = 192 ∧ getB c3cbuf 31 = 12 ∧
    readBytes c3cbuf 46 16 = List.replicate 16 0 := by
  decide

/-- Claim C7 is false on the code: three labels of 63 bytes each satisfy
the claim's bounds (1–4 labels, each at most 63 bytes), but the running
decoded length reaches `3 · 64 = 192 > 128`, so `parse_dns_name` rejects
the name instead of returning the dotted string. -/
theorem c7_counterexample :
    c7labels.length = 3 ∧ (∀ l ∈ c7labels, l.length ≤ 63) ∧
    parse_dns_name (encodeDnsName c7labels) 0 128 = none := by
  decide

/-- Claim C1: every datagram accepted as a standard query (one
`parse_dns_request` answers with a reply buffer) has the QR flag set in the
response's first flags byte and the received question-count bytes copied
verbatim into the response's answer-count field — whether or not any rule
matched, so the declared answer count can exceed the number of answer
records actually written. -/
theorem c1_header_flags (req : List Nat) (entries : List dns_entry_pair)
    (netif : List Nat → Nat) (buf : List Nat) (len : Nat)
    (hb : isBytes req)
    (hp : parse_dns_request req DNS_MAX_LEN entries netif = .reply buf len)
    (hlen : 12 ≤ req.length) :
    getB buf 2 = getB req 2 ||| QR_FLAG ∧
    getB buf 6 = getB req 4 ∧ getB buf 7 = getB req 5 ∧
    readU16BE buf 6 = readU16BE req 4 := by
  obtain ⟨hle, hop, hlen_eq, hcap, hloop⟩ := parse_dns_request_reply_inv hp
  have h2 : getB buf 2 = getB (replyBase req DNS_MAX_LEN) 2 :=
    questionLoop_preserve hloop (Or.inl (by omega))
  have h6 : getB buf 6 = getB (replyBase req DNS_MAX_LEN) 6 :=
    questionLoop_preserve hloop (Or.inl (by omega))
  have h7 : getB buf 7 = getB (replyBase req DNS_MAX_LEN) 7 :=
    questionLoop_preserve hloop (Or.inl (by omega))
  have hb4 := getB_lt_of_isBytes hb 4
  have hb5 := getB_lt_of_isBytes hb 5
  have hq6 : readU16BE req 4 / 256 % 256 = getB req 4 := by
    rw [readU16BE, show (4 : Nat) + 1 = 5 from rfl]; omega
  have hq7 : readU16BE req 4 % 256 = getB req 5 := by
    rw [readU16BE, show (4 : Nat) + 1 = 5 from rfl]; omega
  have e2 : getB buf 2 = getB req 2 ||| QR_FLAG := by
    rw [h2, getB_replyBase_2 req DNS_MAX_LEN (by omega)]
  have e6 : getB buf 6 = getB req 4 := by
    rw [h6, getB_replyBase_6 req DNS_MAX_LEN (by omega), hq6]
  have e7 : getB buf 7 = getB req 5 := by
    rw [h7, getB_replyBase_7 req DNS_MAX_LEN (by omega), hq7]
  refine ⟨e2, e6, e7, ?_⟩
  rw [readU16BE, readU16BE, show (6 : Nat) + 1 = 7 from rfl,
    show (4 : Nat) + 1 = 5 from rfl, e6, e7]

/-- Witness for C1: the query `c1req` (one question, no configured rules)
is accepted, its reply declares one answer while writing none, the QR bit
is set and the answer-count bytes equal the request's question-count
bytes. -/
theorem c1_header_flags_witness :
    isBytes c1req ∧
    parse_dns_request c1req DNS_MAX_LEN c1entries c1netif = ParseResult.reply c1buf 37 ∧
    12 ≤ c1req.length ∧
    (getB c1buf 2 = getB c1req 2 ||| QR_FLAG ∧
      getB c1buf 6 = getB c1req 4 ∧ getB c1buf 7 = getB c1req 5 ∧
      readU16BE c1buf 6 = readU16BE c1req 4) :=
  ⟨by decide, by decide, by decide,
    c1_header_flags c1req c1entries c1netif c1buf 37 (by decide) (by decide)
      (by decide)⟩

/-- Claim C3 (amended): for every accepted request declaring exactly one
question, of type A and matched by a rule, the response is the request plus
exactly one 16-byte answer record appended at the request's end; the
record's name-compression pointer bytes are `C0 0C`, referring back to the
question's own name at offset 12, and the record carries the resolved IPv4
address (the full 16 bytes are `answerBytes` of the question's type and
class and the resolved address). -/
theorem c3_single_question_answer (req : List Nat) (entries : List dns_entry_pair)
    (netif : List Nat → Nat) (buf : List Nat) (len : Nat) (nb : List Nat) (ne : Nat)
    (hp : parse_dns_request req DNS_MAX_LEN entries netif = .reply buf len)
    (h1 : readU16BE req 4 = 1)
    (hn : parse_dns_name (replyBase req DNS_MAX_LEN) 12 128 = some (nb, ne))
    (ht : readU16BE (replyBase req DNS_MAX_LEN) ne = QD_TYPE_A)
    (hip : ruleLookup (headIp entries) netif (cstr nb) entries ≠ IPADDR_ANY) :
    len = req.length + 16 ∧
    readBytes buf req.length 16 =
      answerBytes QD_TYPE_A (readU16BE (replyBase req DNS_MAX_LEN) (ne + 2))
        (ruleLookup (headIp entries) netif (cstr nb) entries) ∧
    getB buf req.length = 192 ∧ getB buf (req.length + 1) = 12 := by
  obtain ⟨hlen_eq, hbuf⟩ := parse_single_question hp h1 hn ht hip
  obtain ⟨hle, _, hlen_eq2, hcap, _⟩ := parse_dns_request_reply_inv hp
  have hmax : DNS_MAX_LEN = 256 := rfl
  rw [hmax] at hle hcap
  have hlb : req.length + 16 ≤ (replyBase req DNS_MAX_LEN).length := by
    rw [length_replyBase, length_reqBuffer, hmax]
    omega
  have hr16 := readBytes_writeBytes
    (answerBytes QD_TYPE_A (readU16BE (replyBase req DNS_MAX_LEN) (ne + 2))
      (ruleLookup (headIp entries) netif (cstr nb) entries))
    (replyBase req DNS_MAX_LEN) req.length
    (by rw [length_answerBytes]; exact hlb)
  rw [length_answerBytes] at hr16
  have g0 := getB_writeBytes_in
    (answerBytes QD_TYPE_A (readU16BE (replyBase req DNS_MAX_LEN) (ne + 2))
      (ruleLookup (headIp entries) netif (cstr nb) entries))
    (replyBase req DNS_MAX_LEN) req.length 0
    (by rw [length_answerBytes]; omega) (by rw [length_answerBytes]; exact hlb)
  have g1 := getB_writeBytes_in
    (answerBytes QD_TYPE_A (readU16BE (replyBase req DNS_MAX_LEN) (ne + 2))
      (ruleLookup (headIp entries) netif (cstr nb) entries))
    (replyBase req DNS_MAX_LEN) req.length 1
    (by rw [length_answerBytes]; omega) (by rw [length_answerBytes]; exact hlb)
  refine ⟨hlen_eq, ?_, ?_, ?_⟩
  · rw [hbuf, writeAnswer]
    exact hr16
  · rw [hbuf, writeAnswer]
    exact g0.trans (by rfl)
  · rw [hbuf, writeAnswer]
    exact g1.trans (by rfl)

/-- Witness for the amended C3: the single-question query `c3req` for
`"abc"`, matched by the wildcard interface rule resolving to `192.168.4.1`,
yields a 37-byte reply whose appended answer record points back at offset
12 and carries the address. -/
theorem c3_single_question_answer_witness :
    (parse_dns_request c3req DNS_MAX_LEN c3entries c3netif =
        ParseResult.reply c3buf 37 ∧
      readU16BE c3req 4 = 1 ∧
      parse_dns_name (replyBase c3req DNS_MAX_LEN) 12 128 = some ([97, 98, 99], 17) ∧
      readU16BE (replyBase c3req DNS_MAX_LEN) 17 = QD_TYPE_A ∧
      ruleLookup (headIp c3entries) c3netif (cstr [97, 98, 99]) c3entries ≠ IPADDR_ANY) ∧
    (37 = c3req.length + 16 ∧
      readBytes c3buf c3req.length 16 =
        answerBytes QD_TYPE_A (readU16BE (replyBase c3req DNS_MAX_LEN) (17 + 2))
          (ruleLookup (headIp c3entries) c3netif (cstr [97, 98, 99]) c3entries) ∧
      getB c3buf c3req.length = 192 ∧ getB c3buf (c3req.length + 1) = 12) :=
  ⟨⟨by decide, by decide, by decide, by decide, by decide⟩,
    c3_single_question_answer c3req c3entries c3netif c3buf 37 [97, 98, 99] 17
      (by decide) (by decide) (by decide) (by decide) (by decide)⟩

/-- Claim C5 is false on the code as stated over "some question's name":
the two-question standard query `c5creq` has a second question (offset 21)
whose decoded name would need 201 scratch bytes, well over the 128-byte
buffer, yet the request is not aborted — the question pointer never
advances, so only the first question (`"abc"`, which decodes fine) is ever
examined, `parse_dns_request` returns `2·16 + 22 = 54`, and the serving
loop sends the 54-byte response. -/
theorem c5_counterexample :
    readU16BE c5creq 4 = 2 ∧
    parse_dns_name (replyBase c5creq DNS_MAX_LEN) 21 128 = none ∧
    (parse_dns_request c5creq DNS_MAX_LEN [] c5netif).retCode = 54 ∧
    (dnsServerIteration [] c5netif c5creq SendOutcome.ok).sent ≠ none := by
  decide

/-- Claim C5 (amended): a standard query whose **first** question's name
would overflow the 128-byte name scratch buffer (the first question is the
only one `parse_dns_request` ever decodes, since the question pointer never
advances), or whose computed reply length (`qd_count · 16 + req_len`)
exceeds the 256-byte reply buffer, makes `parse_dns_request` return the
error result; the serving loop then sends nothing and keeps serving (it
never breaks on a failed parse, whatever the send outcome of other packets
would be). -/
theorem c5_abort_no_response (req : List Nat) (entries : List dns_entry_pair)
    (netif : List Nat → Nat) (so : SendOutcome)
    (hop : readU16LE req 2 &&& OPCODE_MASK = 0)
    (habort :
      (parse_dns_name (replyBase req DNS_MAX_LEN) 12 128 = none ∧
          1 ≤ readU16BE req 4) ∨
        readU16BE req 4 * 16 + req.length > DNS_MAX_LEN) :
    parse_dns_request req DNS_MAX_LEN entries netif = .err ∧
    (dnsServerIteration entries netif req so).sent = none ∧
    (dnsServerIteration entries netif req so).continues = true := by
  have herr : parse_dns_request req DNS_MAX_LEN entries netif = .err := by
    unfold parse_dns_request
    by_cases h1 : req.length > DNS_MAX_LEN
    · rw [if_pos h1]
    · rw [if_neg h1]
      rw [if_neg (by rw [readU16LE_reqBuffer]; exact not_ne_iff.mpr hop)]
      by_cases h3 :
          readU16BE (reqBuffer req DNS_MAX_LEN) 4 * 16 + req.length > DNS_MAX_LEN
      · rw [if_pos h3]
      · rw [if_neg h3]
        rw [readU16BE_reqBuffer] at h3
        rw [readU16BE_reqBuffer]
        rcases habort with ⟨hname, hq⟩ | hbig
        · cases hqd : readU16BE req 4 with
          | zero => omega
          | succ n =>
            rw [questionLoop_succ]
            have hstep : questionStep entries netif req.length
                (replyBase req DNS_MAX_LEN) = none := by
              unfold questionStep; rw [hname]
            rw [hstep]
        · omega
  refine ⟨herr, ?_, ?_⟩ <;> simp [dnsServerIteration, herr]

/-- Witness for C5: the 13-byte query `c5req` declares one question whose
first label-length byte is 200, so decoding would need 201 scratch bytes;
the parse aborts with an error, nothing is sent and the loop continues. -/
theorem c5_abort_no_response_witness :
    (readU16LE c5req 2 &&& OPCODE_MASK = 0) ∧
    parse_dns_name (replyBase c5req DNS_MAX_LEN) 12 128 = none ∧
    1 ≤ readU16BE c5req 4 ∧
    (parse_dns_request c5req DNS_MAX_LEN [] c5netif = ParseResult.err ∧
      (dnsServerIteration [] c5netif c5req SendOutcome.ok).sent = none ∧
      (dnsServerIteration [] c5netif c5req SendOutcome.ok).continues = true) :=
  ⟨by decide, by decide, by decide,
    c5_abort_no_response c5req [] c5netif SendOutcome.ok (by decide)
      (Or.inl ⟨by decide, by decide⟩)⟩

/-- Claim C6: every reply keeps the transaction-id bytes (offsets 0, 1) and
the entire question section (offsets 12 up to the request length)
byte-for-byte identical to the request; if the (single, physical) answer
slot was written at all, its TTL field holds exactly 300 seconds
(`htonl(300)`), and no byte beyond the first answer slot is ever written
(the rest of the reply stays zero). -/
theorem c6_id_question_ttl (req : List Nat) (entries : List dns_entry_pair)
    (netif : List Nat → Nat) (buf : List Nat) (len : Nat)
    (hp : parse_dns_request req DNS_MAX_LEN entries netif = .reply buf len)
    (hlen : 12 ≤ req.length) :
    (getB buf 0 = getB req 0 ∧ getB buf 1 = getB req 1) ∧
    (∀ j, 12 ≤ j → j < req.length → getB buf j = getB req j) ∧
    (getB buf req.length ≠ 0 →
      readBytes buf (req.length + 6) 4 = be32 ANS_TTL_SEC) ∧
    (∀ j, req.length + 16 ≤ j → getB buf j = 0) := by
  obtain ⟨hle, hop, hlen_eq, hcap, hloop⟩ := parse_dns_request_reply_inv hp
  have hmax : DNS_MAX_LEN = 256 := rfl
  rw [hmax] at hle hcap
  have hbase_len : (replyBase req DNS_MAX_LEN).length = 256 := by
    rw [length_replyBase, length_reqBuffer, hmax]; omega
  refine ⟨⟨?_, ?_⟩, ?_, ?_, ?_⟩
  · rw [questionLoop_preserve hloop (Or.inl (by omega)),
      getB_replyBase_other req DNS_MAX_LEN (by omega) (by omega) (by omega)]
  · rw [questionLoop_preserve hloop (Or.inl (by omega)),
      getB_replyBase_other req DNS_MAX_LEN (by omega) (by omega) (by omega)]
  · intro j hj1 hj2
    rw [questionLoop_preserve hloop (Or.inl hj2),
      getB_replyBase_other req DNS_MAX_LEN (by omega) (by omega) (by omega)]
  · have hz : getB (replyBase req DNS_MAX_LEN) req.length = 0 := by
      rw [getB_replyBase_other req DNS_MAX_LEN (by omega) (by omega) (by omega),
        getB_ge (Nat.le_refl _)]
    rcases Nat.lt_or_ge 256 (req.length + 16) with hbig | hfit
    · have hq0 : readU16BE req 4 = 0 := by omega
      rw [hq0, questionLoop_zero] at hloop
      simp only [Option.some.injEq] at hloop
      subst hloop
      intro hcontra
      exact absurd hz hcontra
    · exact questionLoop_ttl hloop (by rw [hbase_len]; omega)
        (fun hc => absurd hz hc)
  · intro j hj
    rcases Nat.lt_or_ge j 256 with hj2 | hj2
    · rw [questionLoop_preserve hloop (Or.inr hj),
        getB_replyBase_other req DNS_MAX_LEN (by omega) (by omega) (by omega),
        getB_ge (by omega)]
    · have hbl : buf.length = 256 := by
        rw [questionLoop_length hloop, hbase_len]
      rw [getB_ge (by omega)]

/-- Witness for C6: the matched query `c6req` produces a reply whose id
bytes and question section equal the request's, whose written answer slot
carries TTL 300, and whose bytes past the single slot are zero. -/
theorem c6_id_question_ttl_witness :
    (parse_dns_request c6req DNS_MAX_LEN c6entries c6netif =
        ParseResult.reply c6buf 37 ∧ 12 ≤ c6req.length) ∧
    (getB c6buf 0 = getB c6req 0 ∧ getB c6buf 1 = getB c6req 1) ∧
    getB c6buf 13 = getB c6req 13 ∧
    readBytes c6buf (c6req.length + 6) 4 = be32 ANS_TTL_SEC ∧
    getB c6buf 40 = 0 :=
  ⟨⟨by decide, by decide⟩,
    (c6_id_question_ttl c6req c6entries c6netif c6buf 37 (by decide) (by decide)).1,
    (c6_id_question_ttl c6req c6entries c6netif c6buf 37 (by decide) (by decide)).2.1
      13 (by decide) (by decide),
    (c6_id_question_ttl c6req c6entries c6netif c6buf 37 (by decide) (by decide)).2.2.1
      (by decide),
    (c6_id_question_ttl c6req c6entries c6netif c6buf 37 (by decide) (by decide)).2.2.2
      40 (by decide)⟩

/-- Claim C9: every accepted request of length `L` declaring `q` questions
yields the return value `q · 16 + L` no matter how many answers were
actually written; and when the (always re-decoded first) question is non-A
or matches no rule, nothing is ever written after the copied request, so
the trailing `q · 16` bytes of the transmitted reply are the zeros left by
the initial buffer clear. -/
theorem c9_reply_length_padding (req : List Nat) (entries : List dns_entry_pair)
    (netif : List Nat → Nat) (buf : List Nat) (len : Nat)
    (hp : parse_dns_request req DNS_MAX_LEN entries netif = .reply buf len)
    (hlen : 12 ≤ req.length) :
    len = readU16BE req 4 * 16 + req.length ∧
    ((∀ nb ne, parse_dns_name (replyBase req DNS_MAX_LEN) 12 128 = some (nb, ne) →
        readU16BE (replyBase req DNS_MAX_LEN) ne ≠ QD_TYPE_A ∨
          ruleLookup (headIp entries) netif (cstr nb) entries = IPADDR_ANY) →
      ∀ j, req.length ≤ j → j < len → getB buf j = 0) := by
  obtain ⟨hle, hop, hlen_eq, hcap, hloop⟩ := parse_dns_request_reply_inv hp
  refine ⟨hlen_eq, ?_⟩
  intro hno j hj1 hj2
  have hfix : buf = replyBase req DNS_MAX_LEN := by
    cases hqd : readU16BE req 4 with
    | zero =>
      rw [hqd, questionLoop_zero] at hloop
      simp only [Option.some.injEq] at hloop
      exact hloop.symm
    | succ n =>
      cases hpn : parse_dns_name (replyBase req DNS_MAX_LEN) 12 128 with
      | none =>
        exfalso
        rw [hqd, questionLoop_succ] at hloop
        have hstep : questionStep entries netif req.length
            (replyBase req DNS_MAX_LEN) = none := by
          unfold questionStep; rw [hpn]
        rw [hstep] at hloop
        cases hloop
      | some r =>
        obtain ⟨nb, ne⟩ := r
        have hstep : questionStep entries netif req.length
            (replyBase req DNS_MAX_LEN) = some (replyBase req DNS_MAX_LEN) := by
          unfold questionStep
          rw [hpn]
          simp only
          rcases hno nb ne hpn with hA | hB
          · rw [if_neg hA]
          · by_cases hA : readU16BE (replyBase req DNS_MAX_LEN) ne = QD_TYPE_A
            · rw [if_pos hA, if_pos hB]
            · rw [if_neg hA]
        rw [hqd, questionLoop_fixed hstep (n + 1)] at hloop
        simp only [Option.some.injEq] at hloop
        exact hloop.symm
  subst hfix
  rw [getB_replyBase_other req DNS_MAX_LEN (by omega) (by omega) (by omega),
    getB_ge (by omega)]

/-- Witness for C9: the query `c9req` with an empty rule set is accepted
with return value `1 · 16 + 21 = 37` and its entire answer area is zero
padding. -/
theorem c9_reply_length_padding_witness :
    (parse_dns_request c9req DNS_MAX_LEN [] c9netif =
        ParseResult.reply c9buf 37 ∧ 12 ≤ c9req.length) ∧
    37 = readU16BE c9req 4 * 16 + c9req.length ∧
    getB c9buf 21 = 0 ∧ getB c9buf 36 = 0 :=
  ⟨⟨by decide, by decide⟩,
    (c9_reply_length_padding c9req [] c9netif c9buf 37 (by decide) (by decide)).1,
    (c9_reply_length_padding c9req [] c9netif c9buf 37 (by decide) (by decide)).2
      (fun _ _ _ => Or.inr rfl) 21 (by decide) (by decide),
    (c9_reply_length_padding c9req [] c9netif c9buf 37 (by decide) (by decide)).2
      (fun _ _ _ => Or.inr rfl) 36 (by decide) (by decide)⟩

/-- Claim C10: the question's class field is never examined by the rule
match — the hypotheses below mention only the question type and the rule
lookup, never the class bytes, yet an answer record is always constructed —
and the constructed record echoes the question's two class bytes
unchanged. -/
theorem c10_class_ignored (req : List Nat) (entries : List dns_entry_pair)
    (netif : List Nat → Nat) (buf : List Nat) (len : Nat) (nb : List Nat) (ne : Nat)
    (hb : isBytes req)
    (hp : parse_dns_request req DNS_MAX_LEN entries netif = .reply buf len)
    (h1 : readU16BE req 4 = 1)
    (hn : parse_dns_name (replyBase req DNS_MAX_LEN) 12 128 = some (nb, ne))
    (ht : readU16BE (replyBase req DNS_MAX_LEN) ne = QD_TYPE_A)
    (hip : ruleLookup (headIp entries) netif (cstr nb) entries ≠ IPADDR_ANY) :
    getB buf req.length = 192 ∧
    getB buf (req.length + 4) = getB req (ne + 2) ∧
    getB buf (req.length + 5) = getB req (ne + 3) := by
  obtain ⟨hlen_eq, hbuf⟩ := parse_single_question hp h1 hn ht hip
  obtain ⟨hle, _, _, hcap, _⟩ := parse_dns_request_reply_inv hp
  have hmax : DNS_MAX_LEN = 256 := rfl
  rw [hmax] at hle hcap
  have hlb : req.length + 16 ≤ (replyBase req DNS_MAX_LEN).length := by
    rw [length_replyBase, length_reqBuffer, hmax]
    omega
  have hnp : 12 + 2 ≤ ne := parse_dns_name_pos hn
  have hc1 : getB (replyBase req DNS_MAX_LEN) (ne + 2) = getB req (ne + 2) :=
    getB_replyBase_other req DNS_MAX_LEN (by omega) (by omega) (by omega)
  have hc2 : getB (replyBase req DNS_MAX_LEN) (ne + 3) = getB req (ne + 3) :=
    getB_replyBase_other req DNS_MAX_LEN (by omega) (by omega) (by omega)
  have hlt1 : getB req (ne + 2) < 256 := getB_lt_of_isBytes hb _
  have hlt2 : getB req (ne + 3) < 256 := getB_lt_of_isBytes hb _
  have g0 := getB_writeBytes_in
    (answerBytes QD_TYPE_A (readU16BE (replyBase req DNS_MAX_LEN) (ne + 2))
      (ruleLookup (headIp entries) netif (cstr nb) entries))
    (replyBase req DNS_MAX_LEN) req.length 0
    (by rw [length_answerBytes]; omega) (by rw [length_answerBytes]; exact hlb)
  have g4 := getB_writeBytes_in
    (answerBytes QD_TYPE_A (readU16BE (replyBase req DNS_MAX_LEN) (ne + 2))
      (ruleLookup (headIp entries) netif (cstr nb) entries))
    (replyBase req DNS_MAX_LEN) req.length 4
    (by rw [length_answerBytes]; omega) (by rw [length_answerBytes]; exact hlb)
  have g5 := getB_writeBytes_in
    (answerBytes QD_TYPE_A (readU16BE (replyBase req DNS_MAX_LEN) (ne + 2))
      (ruleLookup (headIp entries) netif (cstr nb) entries))
    (replyBase req DNS_MAX_LEN) req.length 5
    (by rw [length_answerBytes]; omega) (by rw [length_answerBytes]; exact hlb)
  refine ⟨?_, ?_, ?_⟩
  · rw [hbuf, writeAnswer]
    exact g0.trans (by rfl)
  · rw [hbuf, writeAnswer]
    refine g4.trans ?_
    have hd : (answerBytes QD_TYPE_A
        (readU16BE (replyBase req DNS_MAX_LEN) (ne + 2))
        (ruleLookup (headIp entries) netif (cstr nb) entries)).getD 4 0 =
        readU16BE (replyBase req DNS_MAX_LEN) (ne + 2) / 256 % 256 := rfl
    rw [hd, readU16BE, show ne + 2 + 1 = ne + 3 from rfl, hc1, hc2]
    omega
  · rw [hbuf, writeAnswer]
    refine g5.trans ?_
    have hd : (answerBytes QD_TYPE_A
        (readU16BE (replyBase req DNS_MAX_LEN) (ne + 2))
        (ruleLookup (headIp entries) netif (cstr nb) entries)).getD 5 0 =
        readU16BE (replyBase req DNS_MAX_LEN) (ne + 2) % 256 := rfl
    rw [hd, readU16BE, show ne + 2 + 1 = ne + 3 from rfl, hc1, hc2]
    omega

/-- Witness for C10: the query `c10req` carries the unusual class `0x1234`;
an answer is still constructed and its class bytes echo 18, 52. -/
theorem c10_class_ignored_witness :
    (isBytes c10req ∧
      parse_dns_request c10req DNS_MAX_LEN c10entries c10netif =
        ParseResult.reply c10buf 37 ∧
      readU16BE c10req 4 = 1 ∧
      parse_dns_name (replyBase c10req DNS_MAX_LEN) 12 128 = some ([97, 98, 99], 17) ∧
      readU16BE (replyBase c10req DNS_MAX_LEN) 17 = QD_TYPE_A ∧
      ruleLookup (headIp c10entries) c10netif (cstr [97, 98, 99]) c10entries ≠ IPADDR_ANY) ∧
    (getB c10buf c10req.length = 192 ∧
      getB c10buf (c10req.length + 4) = getB c10req (17 + 2) ∧
      getB c10buf (c10req.length + 5) = getB c10req (17 + 3)) :=
  ⟨⟨by decide, by decide, by decide, by decide, by decide, by decide⟩,
    c10_class_ignored c10req c10entries c10netif c10buf 37 [97, 98, 99] 17
      (by decide) (by decide) (by decide) (by decide) (by decide) (by decide)⟩

/-- Claim C7 (amended): for every dotted name of 1 to 4 non-empty labels of
at most 63 non-NUL bytes each whose dotted form is at most 127 bytes long,
encoding the name into DNS wire format and decoding it with
`parse_dns_name` (128-byte scratch buffer) yields back the identical
dotted byte string (and it is its own C string: it contains no NUL), with
the returned continuation position just past the encoded name. -/
theorem c7_roundtrip_amended (labels : List (List Nat))
    (h0 : labels ≠ []) (h4 : labels.length ≤ 4)
    (hwf : ∀ l ∈ labels, 1 ≤ l.length ∧ l.length ≤ 63 ∧ ∀ b ∈ l, b ≠ 0)
    (htot : (dottedName labels).length ≤ 127) :
    parse_dns_name (encodeDnsName labels) 0 128 =
      some (dottedName labels, (encodeDnsName labels).length) ∧
    cstr (dottedName labels) = dottedName labels := by
  have hws := wireSum_eq_dotted labels h0
  have haux := parse_dns_name_aux_encode labels h0 (fun l hl => (hwf l hl).1)
    (128 + 1) 0 0 [] (encodeDnsName labels) (List.drop_zero _)
    (by omega) (by omega)
  constructor
  · unfold parse_dns_name
    rw [haux]
    simp only [Option.map_some', Option.some.injEq, Prod.mk.injEq]
    constructor
    · rw [List.nil_append, dropLast_joinDotted labels h0]
    · rw [length_encodeDnsName]
      omega
  · rw [cstr, List.takeWhile_eq_self_iff.mpr]
    intro x hx
    have hnz := noZero_dottedName labels (fun l hl => (hwf l hl).2.2) x hx
    simp [hnz]

/-- Witness for the amended C7: the name `"abc.de"` round-trips through
encode and `parse_dns_name`. -/
theorem c7_roundtrip_amended_witness :
    (c7wlabels ≠ [] ∧ c7wlabels.length ≤ 4 ∧
      (∀ l ∈ c7wlabels, 1 ≤ l.length ∧ l.length ≤ 63 ∧ ∀ b ∈ l, b ≠ 0) ∧
      (dottedName c7wlabels).length ≤ 127) ∧
    (parse_dns_name (encodeDnsName c7wlabels) 0 128 =
        some (dottedName c7wlabels, (encodeDnsName c7wlabels).length) ∧
      cstr (dottedName c7wlabels) = dottedName c7wlabels) :=
  ⟨⟨by decide, by decide, by decide, by decide⟩,
    c7_roundtrip_amended c7wlabels (by decide) (by decide) (by decide) (by decide)⟩

end CaptiveDns
